import Mathlib

/-!
Verification of the Kinematic Control Core of the Fidelity-dynamics
repository.

The definitions below are a shallow embedding of the JavaScript source:

* `src/frontend/src/components/FrankaRobot.jsx` — DH constants
  (`FRANKA_DH`), joint limits (`JOINT_LIMITS`), `clampJoint`, `lerp`,
  `forwardKinematics`, `solveIK`, the teleoperation solver-write path
  and the per-frame exponential smoothing of the ghost configuration.
* `src/frontend/src/components/ExoViz.jsx` — the keyboard-driven joint
  state machine (`handleKeyDown`): joint selection, rotation with
  clamping, and reset.

JavaScript numbers are modelled as real numbers; JS arrays of 7 angles
become functions `Fin 7 → ℝ`; `THREE.Matrix4` becomes
`Matrix (Fin 4) (Fin 4) ℝ` and `THREE.Vector3` a 3-field structure.
All functions are total, mirroring the fact that none of the source
functions throw.
-/

noncomputable section

namespace Franka

/-- Model of `THREE.Vector3`: three real coordinates. -/
structure Vec3 where
  x : ℝ
  y : ℝ
  z : ℝ

/-- `new THREE.Vector3().subVectors(u, v)`: componentwise difference. -/
def Vec3.sub (u v : Vec3) : Vec3 := ⟨u.x - v.x, u.y - v.y, u.z - v.z⟩

/-- `THREE.Vector3.length()`: Euclidean norm, square root of the sum of
squared components. -/
def Vec3.length (v : Vec3) : ℝ := Real.sqrt (v.x * v.x + v.y * v.y + v.z * v.z)

/-- `THREE.Vector3.dot`. -/
def Vec3.dot (u v : Vec3) : ℝ := u.x * v.x + u.y * v.y + u.z * v.z

/-- `THREE.Vector3.divideScalar(s)`: componentwise division. -/
def Vec3.divScalar (v : Vec3) (s : ℝ) : Vec3 := ⟨v.x / s, v.y / s, v.z / s⟩

/-- A joint configuration: 7 joint angles in radians
(a JS array of length 7 in the source). -/
def JointVec : Type := Fin 7 → ℝ

/-- 4×4 homogeneous transforms (`THREE.Matrix4`). -/
abbrev Mat4 : Type := Matrix (Fin 4) (Fin 4) ℝ

/-- `FRANKA_DH.d` from FrankaRobot.jsx. -/
def dhD : Fin 7 → ℝ := ![0.333, 0, 0.316, 0, 0.384, 0, 0]

/-- `FRANKA_DH.a` from FrankaRobot.jsx. -/
def dhA : Fin 7 → ℝ := ![0, 0, 0, 0.0825, -0.0825, 0, 0.088]

/-- `FRANKA_DH.alpha` from FrankaRobot.jsx. -/
def dhAlpha : Fin 7 → ℝ :=
  ![0, -(Real.pi/2), Real.pi/2, Real.pi/2, -(Real.pi/2), Real.pi/2, Real.pi/2]

/-- Lower bounds of `JOINT_LIMITS` (FrankaRobot.jsx; ExoViz.jsx inlines
the identical table in its rotation handler). -/
def jointMin : Fin 7 → ℝ :=
  ![-2.8973, -1.7628, -2.8973, -3.0718, -2.8973, -0.0175, -2.8973]

/-- Upper bounds of `JOINT_LIMITS`. -/
def jointMax : Fin 7 → ℝ :=
  ![2.8973, 1.7628, 2.8973, -0.0698, 2.8973, 3.7525, 2.8973]

/-- `clampJoint(angle, idx) = Math.max(lo, Math.min(hi, angle))`. -/
def clampJoint (angle : ℝ) (idx : Fin 7) : ℝ :=
  max (jointMin idx) (min (jointMax idx) angle)

/-- `lerp(a, b, t) = a + (b - a) * t`. -/
def lerp (a b t : ℝ) : ℝ := a + (b - a) * t

/-- The joint configuration is within the joint limits: each stored
angle lies in its joint's closed interval. -/
def inLimits (q : JointVec) : Prop :=
  ∀ i : Fin 7, jointMin i ≤ q i ∧ q i ≤ jointMax i

/-- The per-joint DH transform exactly as `Ti.set(...)` writes it
(row-major) inside `forwardKinematics`. -/
def dhMatrix (θ d a α : ℝ) : Mat4 :=
  !![Real.cos θ, -Real.sin θ * Real.cos α,  Real.sin θ * Real.sin α, a * Real.cos θ;
     Real.sin θ,  Real.cos θ * Real.cos α, -Real.cos θ * Real.sin α, a * Real.sin θ;
     0,           Real.sin α,               Real.cos α,              d;
     0,           0,                        0,                       1]

/-- `Matrix4.makeTranslation(x, y, z)`. -/
def translationMatrix (x y z : ℝ) : Mat4 :=
  !![1, 0, 0, x;
     0, 1, 0, y;
     0, 0, 1, z;
     0, 0, 0, 1]

/-- The accumulated transform of `forwardKinematics`: start from the
identity, post-multiply each joint's DH matrix in order, then
post-multiply the end-effector offset `makeTranslation(0, 0, 0.107)`. -/
def fkMatrix (jointAngles : JointVec) : Mat4 :=
  ((List.finRange 7).foldl
    (fun T i => T * dhMatrix (jointAngles i) (dhD i) (dhA i) (dhAlpha i)) 1)
  * translationMatrix 0 0 0.107

/-- `forwardKinematics(jointAngles)`: the translation component of the
final transform (`setFromMatrixPosition` reads entries (0,3), (1,3),
(2,3)). -/
def forwardKinematics (jointAngles : JointVec) : Vec3 :=
  ⟨fkMatrix jointAngles 0 3, fkMatrix jointAngles 1 3, fkMatrix jointAngles 2 3⟩

/-- `lambda = 0.5`, the damping factor in `solveIK`. -/
def lambdaDamping : ℝ := 0.5

/-- `maxStep = 0.15`, the maximum step size per iteration in `solveIK`. -/
def maxStep : ℝ := 0.15

/-- `delta = 0.0001`, the finite-difference perturbation in `solveIK`. -/
def jacobianDelta : ℝ := 0.0001

/-- One non-converged iteration body of `solveIK`: numerical Jacobian by
finite differences (`tempAngles` is a fresh copy with entry `j`
perturbed), adaptive step `min(maxStep, 0.5 * errorMag)`, damped
weighted gradient update, and immediate clamping of each joint.
`forwardKinematics` is pure, so recomputing `currentPos` here yields the
same value the loop head computed. -/
def ikUpdate (targetPos : Vec3) (angles : JointVec) : JointVec :=
  let currentPos := forwardKinematics angles
  let error := Vec3.sub targetPos currentPos
  let errorMag := error.length
  let adaptiveStep := min maxStep (0.5 * errorMag)
  fun j =>
    let tempAngles := Function.update angles j (angles j + jacobianDelta)
    let newPos := forwardKinematics tempAngles
    let dPos := Vec3.divScalar (Vec3.sub newPos currentPos) jacobianDelta
    let gradient := dPos.dot error
    let weight : ℝ := if (j : ℕ) < 3 then 1.0 else 0.8
    let update := gradient * adaptiveStep * weight / (1.0 + lambdaDamping * lambdaDamping)
    clampJoint (angles j + update) j

/-- The iteration loop of `solveIK` with explicit fuel: each pass
computes the current end-effector position, breaks early when the error
magnitude drops below 0.002, and otherwise applies `ikUpdate`. -/
def ikLoop (targetPos : Vec3) : ℕ → JointVec → JointVec
  | 0, angles => angles
  | n + 1, angles =>
    if (Vec3.sub targetPos (forwardKinematics angles)).length < 0.002 then angles
    else ikLoop targetPos n (ikUpdate targetPos angles)

/-- `solveIK(targetPos, currentAngles, iterations)`: copies the seed
(`[...currentAngles]`, the identity on values) and runs the iteration
loop. -/
def solveIK (targetPos : Vec3) (currentAngles : JointVec) (iterations : ℕ) : JointVec :=
  ikLoop targetPos iterations currentAngles

/-- The iteration loop instrumented with the number of update iterations
actually executed before returning. -/
def ikLoopCount (targetPos : Vec3) : ℕ → JointVec → JointVec × ℕ
  | 0, angles => (angles, 0)
  | n + 1, angles =>
    if (Vec3.sub targetPos (forwardKinematics angles)).length < 0.002 then (angles, 0)
    else
      let rest := ikLoopCount targetPos n (ikUpdate targetPos angles)
      (rest.1, rest.2 + 1)

/-- `smoothingFactor = 0.35` (FrankaRobot.jsx). -/
def smoothingFactor : ℝ := 0.35

/-- One display tick of the teleoperation smoothing in `useFrame`:
`ghostJointAngles.map((a, i) => lerp(a, targetAnglesRef.current[i], smoothingFactor))`. -/
def smoothTick (visual solved : JointVec) : JointVec :=
  fun i => lerp (visual i) (solved i) smoothingFactor

/-- `n` repeated display ticks with a fixed solved configuration. -/
def smoothTickN : ℕ → JointVec → JointVec → JointVec
  | 0, visual, _ => visual
  | n + 1, visual, solved => smoothTickN n (smoothTick visual solved) solved

/-- The teleoperation solver-write path (the ghost-robot `useEffect`):
`targetAnglesRef.current = solveIK(targetPos, ghostJointAngles, 20)`.
The stored value is the solver output verbatim; the store site applies
no clamping of its own. -/
def teleopStore (targetPos : Vec3) (ghostJointAngles : JointVec) : JointVec :=
  solveIK targetPos ghostJointAngles 20

/-- Initial ghost configuration of the FrankaRobot component:
`useState([0, 0, 0, -Math.PI/2, 0, Math.PI/2, 0])`. -/
def frankaHomeAngles : JointVec :=
  ![0, 0, 0, -(Real.pi/2), 0, Real.pi/2, 0]

/-- State of the keyboard-driven arm in ExoViz.jsx: the joint angles and
the selected joint index. -/
structure ArmState where
  jointAngles : JointVec
  selectedJoint : Fin 7

/-- Initial state of the ExoViz arm: all angles 0, joint 0 selected. -/
def exoInit : ArmState := ⟨fun _ => 0, 0⟩

/-- The operations that write the joint configuration: key `1`–`7`
selects a joint, ArrowUp/ArrowDown rotates the selected joint by ±0.1
with clamping, `R` resets, a single IK iteration updates all joints, and
the teleoperation solver write stores a full `solveIK` result. -/
inductive ExoEvent where
  | select : Fin 7 → ExoEvent
  | rotate : Bool → ExoEvent
  | reset : ExoEvent
  | ikIterate : Vec3 → ExoEvent
  | solverWrite : Vec3 → ExoEvent

/-- `handleKeyDown` of ExoViz.jsx (select / rotate / reset) together
with the IK-driven write paths of FrankaRobot.jsx. Rotation adds
`delta = ±0.1` to the selected joint and clamps it to the same limit
table; reset sets every joint to 0 and the selection to 0. -/
def handleEvent (e : ExoEvent) (s : ArmState) : ArmState :=
  match e with
  | ExoEvent.select i => ⟨s.jointAngles, i⟩
  | ExoEvent.rotate up =>
    let delta : ℝ := if up then 0.1 else -0.1
    ⟨Function.update s.jointAngles s.selectedJoint
        (clampJoint (s.jointAngles s.selectedJoint + delta) s.selectedJoint),
      s.selectedJoint⟩
  | ExoEvent.reset => ⟨fun _ => 0, 0⟩
  | ExoEvent.ikIterate targetPos => ⟨ikUpdate targetPos s.jointAngles, s.selectedJoint⟩
  | ExoEvent.solverWrite targetPos =>
    ⟨solveIK targetPos s.jointAngles 20, s.selectedJoint⟩

/-- A sequence of operations applied in order. -/
def runExo (evs : List ExoEvent) (s : ArmState) : ArmState :=
  evs.foldl (fun st e => handleEvent e st) s

/-- Explicit-store version of `solveIK` for the frame property: the
caller's array (`currentAngles`) and the local copy (`newAngles`) are
separate store locations; every write in the source targets
`newAngles` (or a fresh `tempAngles` copy), never `currentAngles`. -/
structure IKMem where
  currentAngles : JointVec
  newAngles : JointVec

/-- The `solveIK` loop acting on the explicit store. -/
def ikLoopMem (targetPos : Vec3) : ℕ → IKMem → IKMem
  | 0, m => m
  | n + 1, m =>
    if (Vec3.sub targetPos (forwardKinematics m.newAngles)).length < 0.002 then m
    else ikLoopMem targetPos n ⟨m.currentAngles, ikUpdate targetPos m.newAngles⟩

/-- `solveIK` with the caller's array tracked: the spread
`[...currentAngles]` initialises `newAngles` with the values of the
caller's array; the pair returned is (function result, contents of the
caller's array after the call). -/
def solveIKMem (targetPos : Vec3) (currentAngles : JointVec) (iterations : ℕ) :
    JointVec × JointVec :=
  let finalMem := ikLoopMem targetPos iterations ⟨currentAngles, currentAngles⟩
  (finalMem.newAngles, finalMem.currentAngles)

/-- `forwardKinematics` with the input array tracked through the loop:
each pass reads `jointAngles` and writes only the accumulator matrix.
The pair returned is (function result, contents of the caller's array
after the call). -/
def forwardKinematicsMem (jointAngles : JointVec) : Vec3 × JointVec :=
  let acc := (List.finRange 7).foldl
    (fun (st : Mat4 × JointVec) i =>
      (st.1 * dhMatrix (st.2 i) (dhD i) (dhA i) (dhAlpha i), st.2))
    (1, jointAngles)
  let T := acc.1 * translationMatrix 0 0 0.107
  (⟨T 0 3, T 1 3, T 2 3⟩, acc.2)

/-- Rotation about z by the joint angle, as a homogeneous transform. -/
def rotZ (θ : ℝ) : Mat4 :=
  !![Real.cos θ, -Real.sin θ, 0, 0;
     Real.sin θ,  Real.cos θ, 0, 0;
     0,           0,          1, 0;
     0,           0,          0, 1]

/-- Rotation about x by the link twist, as a homogeneous transform. -/
def rotX (α : ℝ) : Mat4 :=
  !![1, 0,           0,            0;
     0, Real.cos α, -Real.sin α,   0;
     0, Real.sin α,  Real.cos α,   0;
     0, 0,           0,            1]

/-- The standard DH homogeneous transform, stated as the spec states it:
rotate about z by the joint angle, translate d along z, translate a
along x, rotate about x by the link twist. -/
def specDHTransform (θ d a α : ℝ) : Mat4 :=
  rotZ θ * translationMatrix 0 0 d * translationMatrix a 0 0 * rotX α

/-- Modelling the spec's FK contract word for word: start from the
identity, post-multiply the standard DH transform built from
`(angles[i], d[i], a[i], alpha[i])` for each joint in order,
post-multiply the fixed end-effector offset translation (0, 0, 0.107),
and return the translation component. -/
def specComputePose (jointAngles : JointVec) : Vec3 :=
  let T := ((List.finRange 7).foldl
    (fun T i => T * specDHTransform (jointAngles i) (dhD i) (dhA i) (dhAlpha i)) 1)
    * translationMatrix 0 0 0.107
  ⟨T 0 3, T 1 3, T 2 3⟩

/-- The claim's description of one non-converged `solveIK` iteration:
each of the 7 Jacobian columns is `(perturbedPos - currentPos) / delta`
with `delta = 1e-4`, the adaptive step is `min(0.15, 0.5 * errorMag)`,
and joint j receives `(column j · error) * adaptiveStep * weight_j /
(1 + 0.5²)` with weight 1.0 for joints 0–2 and 0.8 for joints 3–6,
clamped immediately. -/
def specIterationUpdate (targetPos : Vec3) (angles : JointVec) : JointVec :=
  let currentPos := forwardKinematics angles
  let error := Vec3.sub targetPos currentPos
  let adaptiveStep := min 0.15 (0.5 * error.length)
  fun j =>
    let column := Vec3.divScalar
      (Vec3.sub (forwardKinematics (Function.update angles j (angles j + 0.0001))) currentPos)
      0.0001
    let weight : ℝ := if (j : ℕ) < 3 then 1.0 else 0.8
    clampJoint (angles j + column.dot error * adaptiveStep * weight / (1 + 0.5 ^ 2)) j

/-- A concrete joint configuration within all joint limits, used as a
seed in concrete instantiations. -/
def wSeed : JointVec := ![0, 0, 0, -1, 0, 1, 0]

/-- A concrete sequence of reset-free operations. -/
def wEvents : List ExoEvent :=
  [ExoEvent.rotate true, ExoEvent.select 2,
   ExoEvent.solverWrite ⟨1, 1, 1⟩, ExoEvent.ikIterate ⟨0.3, 0, 0.5⟩]

/-- A concrete joint configuration with joint 0 far outside its limits
(5 rad against an upper limit of 2.8973 rad). -/
def gBad : JointVec := ![5, 0, 0, -1, 0, 1, 0]

/-- A concrete in-limits visual configuration, far from `cSol` on
joint 0. -/
def cVis : JointVec := ![2.8, 0, 0, -1, 0, 1, 0]

/-- A concrete in-limits solved configuration. -/
def cSol : JointVec := ![-2.8, 0, 0, -1, 0, 1, 0]

/-- Every joint's lower limit is at most its upper limit. -/
lemma jointMin_le_jointMax : ∀ i : Fin 7, jointMin i ≤ jointMax i := by
  intro i
  fin_cases i <;> norm_num [jointMin, jointMax]

/-- Clamping always lands inside the joint's limit interval. -/
lemma clampJoint_mem (x : ℝ) (i : Fin 7) :
    jointMin i ≤ clampJoint x i ∧ clampJoint x i ≤ jointMax i := by
  refine ⟨le_max_left _ _, max_le (jointMin_le_jointMax i) (min_le_left _ _)⟩

/-- Every component of an `ikUpdate` result is a `clampJoint` output, so
the result is within limits regardless of the input. -/
lemma ikUpdate_inLimits (targetPos : Vec3) (angles : JointVec) :
    inLimits (ikUpdate targetPos angles) := by
  intro j
  exact clampJoint_mem _ j

/-- The `solveIK` loop preserves the limit invariant. -/
lemma ikLoop_inLimits (targetPos : Vec3) (n : ℕ) (angles : JointVec)
    (h : inLimits angles) : inLimits (ikLoop targetPos n angles) := by
  induction n generalizing angles with
  | zero => exact h
  | succ n ih =>
    rw [ikLoop]
    split
    · exact h
    · exact ih _ (ikUpdate_inLimits targetPos angles)

/-- The length of the difference of a vector with itself is 0. -/
lemma vec3_sub_self_length (v : Vec3) : (Vec3.sub v v).length = 0 := by
  simp [Vec3.sub, Vec3.length]

/-- Seeding the loop with angles whose forward kinematics already hits
the target makes the early-exit test fire at once, so the loop returns
the seed unchanged. -/
lemma ikLoop_fk_self (q : JointVec) (n : ℕ) :
    ikLoop (forwardKinematics q) n q = q := by
  cases n with
  | zero => rfl
  | succ n =>
    rw [ikLoop, if_pos]
    rw [vec3_sub_self_length]
    norm_num

/-- The instrumented loop executes at most its fuel many update
iterations. -/
lemma ikLoopCount_le (targetPos : Vec3) (n : ℕ) (angles : JointVec) :
    (ikLoopCount targetPos n angles).2 ≤ n := by
  induction n generalizing angles with
  | zero => simp [ikLoopCount]
  | succ n ih =>
    rw [ikLoopCount]
    split
    · simp
    · simpa using Nat.succ_le_succ (ih (ikUpdate targetPos angles))

/-- The instrumented loop returns the same configuration as the plain
loop. -/
lemma ikLoopCount_fst (targetPos : Vec3) (n : ℕ) (angles : JointVec) :
    (ikLoopCount targetPos n angles).1 = ikLoop targetPos n angles := by
  induction n generalizing angles with
  | zero => rfl
  | succ n ih =>
    rw [ikLoopCount, ikLoop]
    split
    · rfl
    · exact ih (ikUpdate targetPos angles)

/-- The explicit-store loop never writes the caller's array. -/
lemma ikLoopMem_currentAngles (targetPos : Vec3) (n : ℕ) (m : IKMem) :
    (ikLoopMem targetPos n m).currentAngles = m.currentAngles := by
  induction n generalizing m with
  | zero => rfl
  | succ n ih =>
    rw [ikLoopMem]
    split
    · rfl
    · exact ih _

/-- The explicit-store loop computes the same angles as the plain loop. -/
lemma ikLoopMem_newAngles (targetPos : Vec3) (n : ℕ) (m : IKMem) :
    (ikLoopMem targetPos n m).newAngles = ikLoop targetPos n m.newAngles := by
  induction n generalizing m with
  | zero => rfl
  | succ n ih =>
    rw [ikLoopMem, ikLoop]
    split
    · rfl
    · exact ih _

/-- The FK fold threads the joint-angle array through unchanged and
accumulates the same matrix as the plain fold. -/
lemma fk_fold_mem (l : List (Fin 7)) (T : Mat4) (q : JointVec) :
    l.foldl (fun (st : Mat4 × JointVec) i =>
        (st.1 * dhMatrix (st.2 i) (dhD i) (dhA i) (dhAlpha i), st.2)) (T, q)
      = (l.foldl (fun T i => T * dhMatrix (q i) (dhD i) (dhA i) (dhAlpha i)) T, q) := by
  induction l generalizing T with
  | nil => rfl
  | cons a l ih => exact ih _

/-- One smoothing tick scales each joint's distance to the solved
configuration by `1 - smoothingFactor = 0.65`. -/
lemma smoothTick_dist (visual solved : JointVec) (i : Fin 7) :
    |smoothTick visual solved i - solved i| = 0.65 * |visual i - solved i| := by
  have h : smoothTick visual solved i - solved i = 0.65 * (visual i - solved i) := by
    simp only [smoothTick, lerp, smoothingFactor]
    ring
  rw [h, abs_mul, abs_of_pos]
  norm_num

/-- After `n` smoothing ticks each joint's distance to the solved
configuration is scaled by `0.65 ^ n`. -/
lemma smoothTickN_dist (n : ℕ) (visual solved : JointVec) (i : Fin 7) :
    |smoothTickN n visual solved i - solved i| = 0.65 ^ n * |visual i - solved i| := by
  induction n generalizing visual with
  | zero => simp [smoothTickN]
  | succ n ih =>
    rw [smoothTickN, ih, smoothTick_dist]
    ring

/-- First step of the DH factorization: rotation about z followed by
the translation d along z. -/
lemma rotZ_mul_transZ (θ d : ℝ) :
    rotZ θ * translationMatrix 0 0 d =
    !![Real.cos θ, -Real.sin θ, 0, 0;
       Real.sin θ,  Real.cos θ, 0, 0;
       0,           0,          1, d;
       0,           0,          0, 1] := by
  ext i j
  fin_cases i <;> fin_cases j <;>
    simp [rotZ, translationMatrix, Matrix.mul_apply, Fin.sum_univ_four,
      Matrix.vecHead, Matrix.vecTail]

/-- Second step of the DH factorization: appending the translation a
along x. -/
lemma rotZ_transZ_mul_transX (θ d a : ℝ) :
    (!![Real.cos θ, -Real.sin θ, 0, 0;
        Real.sin θ,  Real.cos θ, 0, 0;
        0,           0,          1, d;
        0,           0,          0, 1] : Mat4) * translationMatrix a 0 0 =
    !![Real.cos θ, -Real.sin θ, 0, a * Real.cos θ;
       Real.sin θ,  Real.cos θ, 0, a * Real.sin θ;
       0,           0,          1, d;
       0,           0,          0, 1] := by
  ext i j
  fin_cases i <;> fin_cases j <;>
    simp [translationMatrix, Matrix.mul_apply, Fin.sum_univ_four,
      Matrix.vecHead, Matrix.vecTail] <;> ring

/-- Third step of the DH factorization: appending the rotation about x. -/
lemma rotZ_transZ_transX_mul_rotX (θ d a α : ℝ) :
    (!![Real.cos θ, -Real.sin θ, 0, a * Real.cos θ;
        Real.sin θ,  Real.cos θ, 0, a * Real.sin θ;
        0,           0,          1, d;
        0,           0,          0, 1] : Mat4) * rotX α = dhMatrix θ d a α := by
  ext i j
  fin_cases i <;> fin_cases j <;>
    simp [dhMatrix, rotX, Matrix.mul_apply, Fin.sum_univ_four,
      Matrix.vecHead, Matrix.vecTail]

/-- The matrix written entry-by-entry in the source is exactly the
standard DH homogeneous transform `rotZ · transZ(d) · transX(a) · rotX(α)`. -/
lemma dhMatrix_eq_specDHTransform (θ d a α : ℝ) :
    dhMatrix θ d a α = specDHTransform θ d a α := by
  rw [specDHTransform, rotZ_mul_transZ, rotZ_transZ_mul_transX,
    rotZ_transZ_transX_mul_rotX]

/-- The code-side iteration body equals the spec-side description. -/
lemma ikUpdate_eq_specIterationUpdate (targetPos : Vec3) (angles : JointVec) :
    ikUpdate targetPos angles = specIterationUpdate targetPos angles := by
  funext j
  simp only [ikUpdate, specIterationUpdate, maxStep, jacobianDelta, lambdaDamping]
  norm_num

/-- Any event other than reset preserves the limit invariant. -/
lemma handleEvent_inLimits (e : ExoEvent) (s : ArmState)
    (h : inLimits s.jointAngles) (hne : e ≠ ExoEvent.reset) :
    inLimits (handleEvent e s).jointAngles := by
  cases e with
  | select i => exact h
  | rotate up =>
    intro i
    by_cases hi : i = s.selectedJoint
    · subst hi
      simp only [handleEvent, Function.update_same]
      exact clampJoint_mem _ _
    · simp only [handleEvent, Function.update_noteq hi]
      exact h i
  | reset => exact absurd rfl hne
  | ikIterate targetPos => exact ikUpdate_inLimits targetPos s.jointAngles
  | solverWrite targetPos => exact ikLoop_inLimits targetPos 20 s.jointAngles h

/-- A run of reset-free events preserves the limit invariant. -/
lemma runExo_inLimits (evs : List ExoEvent) (s : ArmState)
    (h : inLimits s.jointAngles) (hnr : ∀ e ∈ evs, e ≠ ExoEvent.reset) :
    inLimits (runExo evs s).jointAngles := by
  induction evs generalizing s with
  | nil => exact h
  | cons e evs ih =>
    exact ih (handleEvent e s)
      (handleEvent_inLimits e s h (hnr e (List.mem_cons_self e evs)))
      (fun x hx => hnr x (List.mem_cons_of_mem e hx))

/-- From `n` at least `log ε / log 0.65` (with `ε > 0`) the geometric
factor `0.65 ^ n` is at most `ε`. -/
lemma pow_le_of_log_ratio_le (ε : ℝ) (n : ℕ) (hε : 0 < ε)
    (hn : Real.log ε / Real.log 0.65 ≤ (n : ℝ)) :
    (0.65 : ℝ) ^ n ≤ ε := by
  have hlog : Real.log (0.65 : ℝ) < 0 :=
    Real.log_neg (by norm_num) (by norm_num)
  have hne : Real.log (0.65 : ℝ) ≠ 0 := ne_of_lt hlog
  have hmul : (n : ℝ) * Real.log 0.65 ≤ Real.log ε := by
    have := mul_le_mul_of_nonpos_right hn (le_of_lt hlog)
    rwa [div_mul_cancel₀ _ hne] at this
  have hlogpow : Real.log ((0.65 : ℝ) ^ n) ≤ Real.log ε := by
    rw [Real.log_pow]
    exact_mod_cast hmul
  exact (Real.log_le_log_iff (pow_pos (by norm_num) n) hε).mp hlogpow

/-- The concrete seed is within all joint limits. -/
lemma wSeed_inLimits : inLimits wSeed := by
  intro i
  fin_cases i <;> norm_num [wSeed, jointMin, jointMax]

/-- The concrete event sequence contains no reset. -/
lemma wEvents_no_reset : ∀ e ∈ wEvents, e ≠ ExoEvent.reset := by
  intro e he
  fin_cases he <;> intro hc <;> cases hc

/-- Claim C1 (counterexample): the claim that every stored joint angle
is within its limits after any operation fails on the reset path — the
R-key handler in ExoViz.jsx sets every joint to 0, and 0 lies outside
joint 4's limits [-3.0718, -0.0698] (the initial state violates the
invariant the same way). -/
theorem C1_reset_breaks_limits :
    ¬ inLimits ((handleEvent ExoEvent.reset exoInit).jointAngles) := by
  intro h
  have h3 := (h 3).2
  simp only [handleEvent] at h3
  norm_num [jointMax] at h3

/-- Claim C1 (amended): for all sequences of manual rotations, joint
selections, single IK iterations and solver writes — every write path
except reset — starting from a configuration within limits, every
stored joint angle stays within its joint's limits. -/
theorem C1_limit_invariant_without_reset (evs : List ExoEvent) (s : ArmState)
    (h : inLimits s.jointAngles) (hnr : ∀ e ∈ evs, e ≠ ExoEvent.reset) :
    inLimits ((runExo evs s).jointAngles) :=
  runExo_inLimits evs s h hnr

/-- Witness for C1: a concrete in-limits start state and a concrete
reset-free operation sequence satisfy the hypotheses, and the invariant
holds at the end of the run. -/
theorem C1_limit_invariant_without_reset_witness :
    inLimits wSeed ∧ (∀ e ∈ wEvents, e ≠ ExoEvent.reset) ∧
    inLimits ((runExo wEvents ⟨wSeed, 0⟩).jointAngles) :=
  ⟨wSeed_inLimits, wEvents_no_reset,
    C1_limit_invariant_without_reset wEvents ⟨wSeed, 0⟩ wSeed_inLimits wEvents_no_reset⟩

/-- Claim C2: for every target (reachable or not) and every seed within
limits, `solveIK` returns a configuration (it is a total function, never
raising an error), the returned configuration is within the joint
limits, and the loop executes at most `iterations` update iterations. -/
theorem C2_solveIK_graceful (targetPos : Vec3) (seed : JointVec) (n : ℕ)
    (h : inLimits seed) :
    inLimits (solveIK targetPos seed n) ∧
    (ikLoopCount targetPos n seed).2 ≤ n ∧
    (ikLoopCount targetPos n seed).1 = solveIK targetPos seed n :=
  ⟨ikLoop_inLimits targetPos n seed h, ikLoopCount_le targetPos n seed,
    ikLoopCount_fst targetPos n seed⟩

/-- Witness for C2: a target at (140, 0, 0) — more than 100 times the
chain's maximum reach of about 1.4 — with a concrete in-limits seed. -/
theorem C2_solveIK_graceful_witness :
    inLimits wSeed ∧
    (inLimits (solveIK ⟨140, 0, 0⟩ wSeed 20) ∧
      (ikLoopCount ⟨140, 0, 0⟩ 20 wSeed).2 ≤ 20 ∧
      (ikLoopCount ⟨140, 0, 0⟩ 20 wSeed).1 = solveIK ⟨140, 0, 0⟩ wSeed 20) :=
  ⟨wSeed_inLimits, C2_solveIK_graceful ⟨140, 0, 0⟩ wSeed 20 wSeed_inLimits⟩

/-- Claim C3: each `solveIK` iteration computes the current FK position,
returns the current estimate early when the error magnitude is below
0.002, and otherwise applies exactly the update described by the spec:
finite-difference Jacobian columns with delta 1e-4, adaptive step
`min(0.15, 0.5 * errorMag)`, per-joint update
`(column · error) * step * weight / (1 + 0.5²)` with weight 1.0 for
joints 0–2 and 0.8 for joints 3–6, each angle clamped within the same
iteration. -/
theorem C3_iteration_structure (targetPos : Vec3) (q : JointVec) (n : ℕ) :
    solveIK targetPos q (n + 1) =
      if (Vec3.sub targetPos (forwardKinematics q)).length < 0.002 then q
      else solveIK targetPos (specIterationUpdate targetPos q) n := by
  rw [solveIK, solveIK, ikLoop, ikUpdate_eq_specIterationUpdate]

/-- Claim C4: `forwardKinematics` returns the translation component of
the product of the standard DH homogeneous transforms
`rotZ(θᵢ) · transZ(dᵢ) · transX(aᵢ) · rotX(αᵢ)` taken in joint order
from the identity, post-multiplied by the fixed end-effector offset
translation (0, 0, 0.107); it is a pure function (defined here as a
plain function with no state). -/
theorem C4_fk_standard_dh_chain (q : JointVec) :
    forwardKinematics q = specComputePose q := by
  have h : (fun (T : Mat4) (i : Fin 7) => T * dhMatrix (q i) (dhD i) (dhA i) (dhAlpha i))
      = fun (T : Mat4) (i : Fin 7) => T * specDHTransform (q i) (dhD i) (dhA i) (dhAlpha i) := by
    funext T i
    rw [dhMatrix_eq_specDHTransform]
  simp only [forwardKinematics, fkMatrix, specComputePose, h]

/-- Claim C5: `solveIK` is deterministic — two runs on identical inputs
(target, seed, iteration count; the chain constants are fixed load-time
constants) produce identical outputs, the algorithm containing no
randomness or run-dependent state. -/
theorem C5_deterministic (t₁ t₂ : Vec3) (s₁ s₂ : JointVec) (n₁ n₂ : ℕ)
    (ht : t₁ = t₂) (hs : s₁ = s₂) (hn : n₁ = n₂) :
    solveIK t₁ s₁ n₁ = solveIK t₂ s₂ n₂ := by
  rw [ht, hs, hn]

/-- Witness for C5: two runs on a concrete identical input coincide. -/
theorem C5_deterministic_witness :
    (⟨0.3, 0, 0.5⟩ : Vec3) = ⟨0.3, 0, 0.5⟩ ∧
    solveIK ⟨0.3, 0, 0.5⟩ wSeed 20 = solveIK ⟨0.3, 0, 0.5⟩ wSeed 20 :=
  ⟨rfl, C5_deterministic _ _ wSeed wSeed 20 20 rfl rfl rfl⟩

/-- Claim C6 (counterexample): the R-key reset of ExoViz.jsx sets joint
index 3 to 0 rad, not to the claimed home angle -π/2: the claim's home
pose literal [0, 0, 0, -π/2, 0, π/2, 0] is not what reset writes. -/
theorem C6_reset_not_franka_home :
    ((handleEvent ExoEvent.reset exoInit).jointAngles) 3 = 0 ∧
    (0 : ℝ) ≠ frankaHomeAngles 3 := by
  constructor
  · rfl
  · have h : frankaHomeAngles 3 = -(Real.pi/2) := by norm_num [frankaHomeAngles]
    rw [h]
    intro hc
    have hπ := Real.pi_pos
    rw [eq_comm, neg_eq_iff_eq_neg] at hc
    norm_num at hc
    linarith

/-- Claim C6 (amended): the R-key reset sets every joint to 0 rad and
resets the selected joint index to 0; forward kinematics on the reset
state therefore yields the end-effector position of the all-zero
configuration. The pose [0, 0, 0, -π/2, 0, π/2, 0] is the initial ghost
configuration of the FrankaRobot teleoperation component, not the value
the reset handler writes. -/
theorem C6_reset_behavior (s : ArmState) :
    (handleEvent ExoEvent.reset s).jointAngles = (fun _ => 0) ∧
    (handleEvent ExoEvent.reset s).selectedJoint = 0 ∧
    forwardKinematics (handleEvent ExoEvent.reset s).jointAngles
      = forwardKinematics (fun _ => 0) ∧
    frankaHomeAngles = ![0, 0, 0, -(Real.pi/2), 0, Real.pi/2, 0] :=
  ⟨rfl, rfl, rfl, rfl⟩

/-- Claim C7: FK/IK round trip — for any configuration q within limits,
solving IK for the target FK(q) with seed q and re-running FK lands
within the convergence epsilon 0.002 of FK(q) (the error is exactly 0:
the solver's early-exit test fires on the first iteration). -/
theorem C7_fk_ik_roundtrip (q : JointVec) (h : inLimits q) :
    (Vec3.sub (forwardKinematics (solveIK (forwardKinematics q) q 20))
      (forwardKinematics q)).length < 0.002 := by
  rw [solveIK, ikLoop_fk_self, vec3_sub_self_length]
  norm_num

/-- Witness for C7 at a concrete in-limits configuration. -/
theorem C7_fk_ik_roundtrip_witness :
    inLimits wSeed ∧
    (Vec3.sub (forwardKinematics (solveIK (forwardKinematics wSeed) wSeed 20))
      (forwardKinematics wSeed)).length < 0.002 :=
  ⟨wSeed_inLimits, C7_fk_ik_roundtrip wSeed wSeed_inLimits⟩

/-- Claim C8 (counterexample): the teleoperation store path does not
clamp incoming angles. With an out-of-limits ghost seed whose FK already
matches the target, `solveIK` early-exits and the store keeps joint 0 at
5 rad verbatim — `clampJoint` would have given 2.8973 — so the stored
configuration is out of limits. -/
theorem C8_store_does_not_clamp :
    teleopStore (forwardKinematics gBad) gBad 0 = 5 ∧
    clampJoint 5 0 ≠ 5 ∧
    ¬ inLimits (teleopStore (forwardKinematics gBad) gBad) := by
  have hstore : teleopStore (forwardKinematics gBad) gBad = gBad := by
    rw [teleopStore, solveIK, ikLoop_fk_self]
  refine ⟨?_, ?_, ?_⟩
  · rw [hstore]
    norm_num [gBad]
  · norm_num [clampJoint, jointMin, jointMax]
  · rw [hstore]
    intro h
    have h0 := (h 0).2
    norm_num [gBad, jointMax] at h0

/-- Claim C8 (amended): the teleoperation store path stores the solver
output verbatim with no clamping of its own; because the solver clamps
every update internally, the stored configuration is within limits
whenever the ghost seed it is solved from is within limits. -/
theorem C8_store_within_limits (targetPos : Vec3) (g : JointVec)
    (h : inLimits g) : inLimits (teleopStore targetPos g) :=
  ikLoop_inLimits targetPos 20 g h

/-- Witness for C8 at a concrete in-limits ghost configuration. -/
theorem C8_store_within_limits_witness :
    inLimits wSeed ∧ inLimits (teleopStore ⟨0.3, 0, 0.5⟩ wSeed) :=
  ⟨wSeed_inLimits, C8_store_within_limits ⟨0.3, 0, 0.5⟩ wSeed wSeed_inLimits⟩

/-- Claim C9 (counterexample): the claimed tick bound
`ceil(ln ε / ln(1 - 0.35))` ignores the initial distance. With
ε = 0.65 the bound is 1 tick, yet for the in-limits configurations
`cVis` and `cSol` (joint 0 at ±2.8 rad) one tick leaves joint 0 at
distance 3.64 > 0.65 from the solved configuration. -/
theorem C9_tick_bound_fails :
    ⌈Real.log 0.65 / Real.log (1 - smoothingFactor)⌉ = 1 ∧
    inLimits cVis ∧ inLimits cSol ∧
    0.65 < |smoothTickN 1 cVis cSol 0 - cSol 0| := by
  have h65 : (1 : ℝ) - smoothingFactor = 0.65 := by norm_num [smoothingFactor]
  have hne : Real.log (0.65 : ℝ) ≠ 0 :=
    ne_of_lt (Real.log_neg (by norm_num) (by norm_num))
  refine ⟨?_, ?_, ?_, ?_⟩
  · rw [h65, div_self hne, Int.ceil_one]
  · intro i
    fin_cases i <;> norm_num [cVis, jointMin, jointMax]
  · intro i
    fin_cases i <;> norm_num [cSol, jointMin, jointMax]
  · have hval : smoothTickN 1 cVis cSol 0 - cSol 0 = 3.64 := by
      norm_num [smoothTickN, smoothTick, lerp, smoothingFactor, cVis, cSol]
    rw [hval, abs_of_pos (by norm_num : (0 : ℝ) < 3.64)]
    norm_num

/-- Claim C9 (amended): every teleoperation display tick updates each
visual joint by `visual[i] = lerp(visual[i], solved[i], 0.35)`; when no
new target arrives, each tick scales every joint's distance to the
solved configuration by 0.65, so the visual configuration is within ε
of the solved one after `ceil(ln ε / ln(1 - 0.35))` ticks provided
every initial per-joint distance is at most 1 rad (in general the tick
count depends on the initial distance, which the claim's bound omits). -/
theorem C9_smoothing_convergence (visual solved : JointVec) (ε : ℝ) (n : ℕ)
    (hε : 0 < ε) (hinit : ∀ i, |visual i - solved i| ≤ 1)
    (hn : ⌈Real.log ε / Real.log (1 - smoothingFactor)⌉ ≤ (n : ℤ)) :
    smoothTick visual solved = (fun i => lerp (visual i) (solved i) smoothingFactor) ∧
    ∀ i, |smoothTickN n visual solved i - solved i| ≤ ε := by
  have h65 : (1 : ℝ) - smoothingFactor = 0.65 := by norm_num [smoothingFactor]
  rw [h65] at hn
  have hratio : Real.log ε / Real.log 0.65 ≤ (n : ℝ) := by
    exact_mod_cast Int.ceil_le.mp hn
  have hpow : (0.65 : ℝ) ^ n ≤ ε := pow_le_of_log_ratio_le ε n hε hratio
  refine ⟨rfl, fun i => ?_⟩
  rw [smoothTickN_dist]
  calc (0.65 : ℝ) ^ n * |visual i - solved i|
      ≤ 0.65 ^ n * 1 :=
        mul_le_mul_of_nonneg_left (hinit i) (pow_nonneg (by norm_num) n)
    _ = 0.65 ^ n := mul_one _
    _ ≤ ε := hpow

/-- Witness for C9: with visual = solved, ε = 1 and n = 0 the
hypotheses hold (the ceiling of `log 1 / log 0.65 = 0` is 0) and the
conclusion follows. -/
theorem C9_smoothing_convergence_witness :
    (0 : ℝ) < 1 ∧ (∀ i : Fin 7, |wSeed i - wSeed i| ≤ 1) ∧
    ⌈Real.log 1 / Real.log (1 - smoothingFactor)⌉ ≤ ((0 : ℕ) : ℤ) ∧
    (smoothTick wSeed wSeed = (fun i => lerp (wSeed i) (wSeed i) smoothingFactor) ∧
      ∀ i, |smoothTickN 0 wSeed wSeed i - wSeed i| ≤ 1) := by
  have h1 : (0 : ℝ) < 1 := by norm_num
  have h2 : ∀ i : Fin 7, |wSeed i - wSeed i| ≤ 1 := by
    intro i
    simp
  have h3 : ⌈Real.log 1 / Real.log (1 - smoothingFactor)⌉ ≤ ((0 : ℕ) : ℤ) := by
    rw [Real.log_one, zero_div, Int.ceil_zero]
    norm_num
  exact ⟨h1, h2, h3, C9_smoothing_convergence wSeed wSeed 1 0 h1 h2 h3⟩

/-- Claim C10: `solveIK` never mutates its seed — the caller's array is
copied on entry and only the copy (and fresh per-column copies for the
Jacobian) is written, so the caller's array after the call equals its
value before, and the result agrees with the value-level `solveIK`;
likewise `forwardKinematics` only reads its input array, which passes
through its loop unchanged. -/
theorem C10_no_input_mutation (targetPos : Vec3) (q : JointVec) (n : ℕ) :
    (solveIKMem targetPos q n).2 = q ∧
    (solveIKMem targetPos q n).1 = solveIK targetPos q n ∧
    (forwardKinematicsMem q).2 = q ∧
    (forwardKinematicsMem q).1 = forwardKinematics q := by
  refine ⟨?_, ?_, ?_, ?_⟩
  · exact ikLoopMem_currentAngles targetPos n ⟨q, q⟩
  · exact ikLoopMem_newAngles targetPos n ⟨q, q⟩
  · simp only [forwardKinematicsMem, fk_fold_mem]
  · simp only [forwardKinematicsMem, fk_fold_mem, forwardKinematics, fkMatrix]

end Franka
